import Mathlib

/-!
Shallow embedding of `src/flash.py` (Raspberry Pi Pico flash-and-monitor tool).

Each Python function is translated to a pure Lean function that returns the
list of observable events (prints, serial opens, sleeps, file copies, shelve
writes) it performs, together with its return value.  External collaborators
(psutil partition snapshots, win32 volume labels, the SERIALCOMM registry,
the filesystem, pyserial open outcomes, the serial read stream) are supplied
by an environment record; time-varying state is modelled by indexing each
world query with a call counter that is threaded through the functions.
-/

/-- Observable side effects of the program. -/
inductive Event where
  | print (s : String)
  | printDecodeError (raw : List Nat)
  | openSerial (port : String) (baud : Nat)
  | sleep (seconds : Nat)
  | copy (src : String) (dst : String)
  | shelveWrite (key : String) (value : String)
deriving DecidableEq, Repr

/-- One outcome of `ser.readline()` in the monitor loop: either a chunk of
bytes was returned, or a `KeyboardInterrupt`/`SerialException` occurred. -/
inductive ReadOutcome where
  | line (raw : List Nat)
  | interrupt
deriving DecidableEq, Repr

/-- Result of a probing function: its event trace, the advanced world-query
counter, and the optional `[comPort, partition]` pair it returned. -/
structure ProbeResult where
  events : List Event
  k : Nat
  val : Option (String × String)
deriving DecidableEq, Repr

/-- Result of `find_rpi_rp2_drive`: its event trace and optional device. -/
structure FindResult where
  events : List Event
  val : Option String
deriving DecidableEq, Repr

/-- Result of `read_com`: its event trace and whether the call returns
normally to its caller (`true` only when opening the port raised). -/
structure MonResult where
  events : List Event
  continues : Bool
deriving DecidableEq, Repr

-- Module-level constants of flash.py.

def serial_baudrate : Nat := 115200

def partitionName : String := "RPI-RP2"

def initComPort : Nat := 1

def maxComPorts : Nat := 15

def comAutoScan : Bool := true

def storage_name : String := "flash_partition_shelve"

def storage_key : String := "comPort"

/-- External world supplied to the embedded program.  `snapshot j` is the
list of partition devices returned by the `j`-th `psutil.disk_partitions()`
call; `label` resolves a device to its volume label
(`win32api.GetVolumeInformation(device)[0]`); `openFails j p` tells whether
`serial.Serial(p, 1200, timeout=1)` raises at query index `j`;
`registry` is the `HARDWARE\DEVICEMAP\SERIALCOMM` value list (`none` when
`winreg.OpenKey` raises); `monitorOpenErr m` is the exception text when the
`m`-th `serial.Serial(port, serial_baudrate)` open raises; `reads m` is the
byte stream seen by the `m`-th monitor session. -/
structure Env where
  label : String → String
  snapshot : Nat → List String
  openFails : Nat → String → Bool
  registry : Option (List String)
  argv : List String
  fileExists : String → Bool
  fileSize : String → Nat
  copyFails : Option String
  storedPort : Option String
  monitorOpenErr : Nat → Option String
  reads : Nat → List ReadOutcome

/-- `find_rpi_rp2_drive`: loop over the mounted partitions and return the
first whose volume label equals `partitionName`, printing the mount point. -/
def find_rpi_rp2_drive (label : String → String) : List String → FindResult
  | [] => ⟨[], none⟩
  | d :: rest =>
    if partitionName = label d then
      ⟨[Event.print ("The \x27" ++ partitionName ++ "\x27 drive is mounted at: " ++ d)], some d⟩
    else
      find_rpi_rp2_drive label rest

/-- `get_com_and_partion`: announce and attempt a 1200-baud touch open of
`comPort`; if the open raises, sleep 3 seconds (the bare `except` branch);
then look for the RPI-RP2 partition and return `[comPort, partition]` if it
was found. -/
def get_com_and_partion (env : Env) (k : Nat) (comPort : String) : ProbeResult :=
  let openEvents :=
    Event.print ("Opening serial connection on " ++ comPort ++ " ...") ::
    Event.openSerial comPort 1200 ::
    (if env.openFails k comPort then [Event.sleep 3] else [])
  let f := find_rpi_rp2_drive env.label (env.snapshot k)
  ⟨openEvents ++ f.events, k + 1, f.val.map (fun partition => (comPort, partition))⟩

/-- The `winreg.EnumValue` loop of `wait_for_device_reconnect`: probe each
registry port value in order; return as soon as a probe yields a device. -/
def scanRegistry (env : Env) : Nat → List String → ProbeResult
  | k, [] => ⟨[], k, none⟩
  | k, port :: rest =>
    let r := get_com_and_partion env k port
    match r.val with
    | some d => ⟨r.events, r.k, some d⟩
    | none =>
      let rr := scanRegistry env r.k rest
      ⟨r.events ++ rr.events, rr.k, rr.val⟩

/-- The registry phase of `wait_for_device_reconnect`: if `winreg.OpenKey`
raises, the bare `except: pass` contributes nothing; otherwise enumerate
the registry values. -/
def registryPass (env : Env) (k : Nat) : ProbeResult :=
  match env.registry with
  | none => ⟨[], k, none⟩
  | some ports => scanRegistry env k ports

/-- The `for port in range(initComPort, maxComPorts + 1)` loop: probe
`COM{n}` for each `n`; on success store the winning port in the shelve
storage and return. -/
def rangeScan (env : Env) : Nat → List Nat → ProbeResult
  | k, [] => ⟨[], k, none⟩
  | k, n :: rest =>
    let r := get_com_and_partion env k ("COM" ++ toString n)
    match r.val with
    | some d => ⟨r.events ++ [Event.shelveWrite storage_key d.1], r.k, some d⟩
    | none =>
      let rr := rangeScan env r.k rest
      ⟨r.events ++ rr.events, rr.k, rr.val⟩

/-- The numeric candidate indices `range(initComPort, maxComPorts + 1)`. -/
def comRange : List Nat := List.range' initComPort (maxComPorts + 1 - initComPort)

/-- `wait_for_device_reconnect`: announce, run the registry phase when
`comAutoScan` is set, and fall through to the numeric range scan when the
registry phase produced nothing; returns `none` when the whole pass found
no matching volume. -/
def wait_for_device_reconnect (env : Env) (k : Nat) : ProbeResult :=
  let e0 := Event.print ("Waiting for Raspberry Pi Pico to reconnect...")
  let reg := if comAutoScan then registryPass env k else ⟨[], k, none⟩
  match reg.val with
  | some d => ⟨e0 :: reg.events, reg.k, some d⟩
  | none =>
    let rs := rangeScan env reg.k comRange
    ⟨e0 :: (reg.events ++ rs.events), rs.k, rs.val⟩

/-- `copyFile`: when a positional argument is present, copy it onto the
partition if it exists (reporting size, success and the post-copy settle
sleep, or a copy error), else print a not-found diagnostic. -/
def copyFile (env : Env) (partition : String) : List Event :=
  match env.argv[1]? with
  | none => []
  | some file_path =>
    if env.fileExists file_path then
      Event.print ("Copying file " ++ file_path ++ " to " ++ partition ++
          ". File size: " ++ toString (env.fileSize file_path) ++ " bytes") ::
      Event.copy file_path partition ::
      (match env.copyFails with
       | some e => [Event.print ("Error copying file: " ++ e)]
       | none =>
         [Event.print ("File copied successfully."),
          Event.print ("Wait connecting to " ++ partition ++ " (" ++ partitionName ++ ") ..."),
          Event.sleep 5])
    else
      [Event.print ("File \x27" ++ file_path ++ "\x27 not found.")]

/-- Is `b` a UTF-8 continuation byte (`0x80..0xBF`)? -/
def utf8Cont (b : Nat) : Bool := 0x80 ≤ b && b < 0xC0

/-- Strict UTF-8 decoding of a byte list to code points, rejecting overlong
encodings, surrogates and values above `0x10FFFF` — the behaviour of
Python's `bytes.decode("utf-8")`, which raises on any malformed input. -/
def utf8DecodeAux : List Nat → Option (List Nat)
  | [] => some []
  | b0 :: t =>
    if b0 < 0x80 then
      (utf8DecodeAux t).map (fun cs => b0 :: cs)
    else if b0 < 0xC2 then none
    else if b0 < 0xE0 then
      match t with
      | b1 :: t1 =>
        if utf8Cont b1 then
          (utf8DecodeAux t1).map (fun cs => ((b0 - 0xC0) * 0x40 + (b1 - 0x80)) :: cs)
        else none
      | [] => none
    else if b0 < 0xF0 then
      match t with
      | b1 :: b2 :: t2 =>
        if (if b0 = 0xE0 then decide (0xA0 ≤ b1) && decide (b1 < 0xC0)
            else if b0 = 0xED then decide (0x80 ≤ b1) && decide (b1 < 0xA0)
            else utf8Cont b1) && utf8Cont b2 then
          (utf8DecodeAux t2).map (fun cs =>
            ((b0 - 0xE0) * 0x1000 + (b1 - 0x80) * 0x40 + (b2 - 0x80)) :: cs)
        else none
      | _ => none
    else if b0 < 0xF5 then
      match t with
      | b1 :: b2 :: b3 :: t3 =>
        if (if b0 = 0xF0 then decide (0x90 ≤ b1) && decide (b1 < 0xC0)
            else if b0 = 0xF4 then decide (0x80 ≤ b1) && decide (b1 < 0x90)
            else utf8Cont b1) && utf8Cont b2 && utf8Cont b3 then
          (utf8DecodeAux t3).map (fun cs =>
            ((b0 - 0xF0) * 0x40000 + (b1 - 0x80) * 0x1000 +
             (b2 - 0x80) * 0x40 + (b3 - 0x80)) :: cs)
        else none
      | _ => none
    else none

/-- `raw.decode("utf-8")` as an optional string (`none` = `UnicodeDecodeError`). -/
def utf8DecodeStr (raw : List Nat) : Option String :=
  (utf8DecodeAux raw).map (fun cs => String.mk (cs.map Char.ofNat))

/-- The characters removed by Python's `str.strip()`: exactly the code
points for which CPython's `str.isspace()` holds (`Py_UNICODE_ISSPACE`) —
ASCII `\t \n \v \f \r`, the separators U+001C..U+001F, space, NEL U+0085,
NBSP U+00A0, Ogham space U+1680, the U+2000..U+200A spaces, the line and
paragraph separators U+2028/U+2029, U+202F, U+205F and the ideographic
space U+3000. -/
def pyIsSpace (c : Char) : Bool :=
  [0x09, 0x0A, 0x0B, 0x0C, 0x0D, 0x1C, 0x1D, 0x1E, 0x1F, 0x20,
   0x85, 0xA0, 0x1680, 0x2000, 0x2001, 0x2002, 0x2003, 0x2004, 0x2005,
   0x2006, 0x2007, 0x2008, 0x2009, 0x200A, 0x2028, 0x2029, 0x202F, 0x205F,
   0x3000].contains c.toNat

/-- Python's `str.strip()`: drop leading and trailing whitespace. -/
def pyStrip (s : String) : String :=
  String.mk (((s.data.dropWhile pyIsSpace).reverse.dropWhile pyIsSpace).reverse)

/-- The `while True` body of `read_com`: for each `readline` outcome, print
the decoded, stripped text when the chunk is non-empty; print the raised
`UnicodeDecodeError` itself when decoding fails and keep reading; stop at a
`KeyboardInterrupt`/`SerialException`, which executes `sys.exit(0)`. -/
def read_com_loop : List ReadOutcome → List Event
  | [] => []
  | ReadOutcome.interrupt :: _ => []
  | ReadOutcome.line raw :: rest =>
    (if raw = [] then []
     else
       match utf8DecodeStr raw with
       | some s => [Event.print (pyStrip s)]
       | none => [Event.printDecodeError raw]) ++ read_com_loop rest

/-- `read_com`: open `comPort` at `serial_baudrate` and run the read loop.
The call returns normally to `main` only when the open raised (the outer
`except` prints the exception); otherwise the loop runs until the process
exits or indefinitely.  (`serial_baudrate` is the constant `115200`, so the
`if serial_baudrate is None: sys.exit(0)` guard is never taken.)  `m`
indexes which monitor session of the run this is. -/
def read_com (env : Env) (m : Nat) (comPort : String) : MonResult :=
  let e0 := Event.print ("Opening serial connection on " ++ comPort ++ " ...")
  match env.monitorOpenErr m with
  | some e => ⟨[e0, Event.openSerial comPort serial_baudrate, Event.print e], true⟩
  | none => ⟨e0 :: Event.openSerial comPort serial_baudrate :: read_com_loop (env.reads m), false⟩

/-- The tail of `main` from `if data:` on: copy the file to the resolved
partition, announce, monitor; the final could-not-connect print runs only
if `read_com` returns (i.e. its open raised) or no device was resolved. -/
def mainTail2 (env : Env) (pre : List Event) (data : Option (String × String)) : List Event :=
  match data with
  | some d =>
    let ce := copyFile env d.2
    let rc := read_com env 1 d.1
    if rc.continues then
      pre ++ ce ++ (Event.print ("Connecting to Raspberry Pi Pico...") :: rc.events) ++
        [Event.print ("Could not establish connection to the Raspberry Pi Pico.")]
    else
      pre ++ ce ++ (Event.print ("Connecting to Raspberry Pi Pico...") :: rc.events)
  | none => pre ++ [Event.print ("Could not establish connection to the Raspberry Pi Pico.")]

/-- The tail of `main` from `data = None` on: re-probe the stored port when
one exists, fall back to the full reconnect wait, then `mainTail2`. -/
def mainTail1 (env : Env) (pre : List Event) : List Event :=
  let g : ProbeResult :=
    match env.storedPort with
    | some c => get_com_and_partion env 1 c
    | none => ⟨[], 1, none⟩
  match g.val with
  | some d => mainTail2 env (pre ++ g.events) (some d)
  | none =>
    let w := wait_for_device_reconnect env g.k
    mainTail2 env (pre ++ g.events ++ w.events) w.val

namespace flash

/-- `main`: load the stored COM port, look for the partition directly (fast
path: copy and, when a port is stored, monitor), else report; then the
re-probe / reconnect-wait / copy / monitor tail.  The trace ends early
whenever a monitor session does not return to `main`. -/
def main (env : Env) : List Event :=
  let f := find_rpi_rp2_drive env.label (env.snapshot 0)
  match f.val with
  | some partition =>
    let ce := copyFile env partition
    match env.storedPort with
    | some c =>
      let rc := read_com env 0 c
      if rc.continues then mainTail1 env (f.events ++ ce ++ rc.events)
      else f.events ++ ce ++ rc.events
    | none => mainTail1 env (f.events ++ ce)
  | none => mainTail1 env (f.events ++ [Event.print ("No partitions found.")])

end flash

/-- The port touched by an event, when the event is a 1200-baud open. -/
def touchTarget : Event → Option String
  | Event.openSerial p 1200 => some p
  | _ => none

/-- The ports touch-probed in a trace: the targets of 1200-baud opens. -/
def probedPorts (events : List Event) : List String :=
  events.filterMap touchTarget

/-- Does an event write a file onto the volume? -/
def isCopy : Event → Bool
  | Event.copy _ _ => true
  | _ => false

-- Concrete environments used for evaluation.

/-- A world with no mounted volumes, an empty registry, all touch opens
succeeding, no stored port and no command-line argument. -/
def envEmpty : Env where
  label := fun _ => ""
  snapshot := fun _ => []
  openFails := fun _ _ => false
  registry := some []
  argv := []
  fileExists := fun _ => false
  fileSize := fun _ => 0
  copyFails := none
  storedPort := none
  monitorOpenErr := fun _ => none
  reads := fun _ => []

/-- As `envEmpty`, but `winreg.OpenKey` raises. -/
def envNoReg : Env := { envEmpty with registry := none }

/-- The registry holds `COM9` and the bootloader volume `E:` is mounted
from the start, so the registry phase resolves the device. -/
def envReg : Env :=
  { envEmpty with
    registry := some ["COM9"]
    snapshot := fun _ => ["E:"]
    label := fun d => if d = "E:" then partitionName else "" }

/-- The registry is unavailable and the volume is mounted, so the range
scan resolves the device at its first candidate `COM1`. -/
def envScan : Env :=
  { envEmpty with
    registry := none
    snapshot := fun _ => ["E:"]
    label := fun d => if d = "E:" then partitionName else "" }

/-- Every touch open raises. -/
def envOpenFail : Env := { envEmpty with openFails := fun _ _ => true }

/-- Scenario B of the spec: empty registry; the volume appears only at the
seventh probe (query index 6). -/
def envSeven : Env :=
  { envEmpty with
    snapshot := fun j => if j = 6 then ["E:"] else []
    label := fun d => if d = "E:" then partitionName else "" }

/-- The command-line names an existing firmware file but the copy raises. -/
def envCopyErr : Env :=
  { envEmpty with
    argv := ["flash.py", "fw.uf2"]
    fileExists := fun _ => true
    copyFails := some ("disk full") }

/-- The volume is mounted at startup, a port is stored, and the
command-line names a firmware file that does not exist. -/
def envMissingFile : Env :=
  { envEmpty with
    snapshot := fun _ => ["E:"]
    label := fun d => if d = "E:" then partitionName else ""
    storedPort := some ("COM4")
    argv := ["flash.py", "firmware.uf2"] }

example : (wait_for_device_reconnect envEmpty 0).val = none := by decide
example : (wait_for_device_reconnect envReg 0).val = some ("COM9", "E:") := by decide
example : (wait_for_device_reconnect envScan 0).val = some ("COM1", "E:") := by decide
example : (wait_for_device_reconnect envSeven 0).val = some ("COM7", "E:") := by decide
example : probedPorts (wait_for_device_reconnect envSeven 0).events =
    ["COM1", "COM2", "COM3", "COM4", "COM5", "COM6", "COM7"] := by decide
example : utf8DecodeStr [98, 111, 111, 116, 32, 111, 107, 10] = some ("boot ok\n") := by decide
example : pyStrip "boot ok\n" = "boot ok" := by decide
example : read_com_loop [ReadOutcome.line [98, 111, 111, 116, 32, 111, 107, 10]] =
    [Event.print ("boot ok")] := by decide
example : utf8DecodeStr [255] = none := by decide
example : utf8DecodeStr [226, 128] = none := by decide
example : pyStrip "x\x1c\n" = "x" := by decide
example : pyStrip " boot ok\u0085" = "boot ok" := by decide
example : read_com_loop [ReadOutcome.line [120, 0xC2, 0xA0, 10]] =
    [Event.print ("x")] := by decide
example : copyFile envMissingFile "E:" =
    [Event.print ("File \x27firmware.uf2\x27 not found.")] := by decide

-- Helper lemmas about the embedded functions.

/-- Every event emitted by the volume matcher is a plain print. -/
theorem find_events_all_print (label : String → String) (ps : List String) :
    ∀ e ∈ (find_rpi_rp2_drive label ps).events, ∃ s, e = Event.print s := by
  induction ps with
  | nil => intro e he; simp [find_rpi_rp2_drive] at he
  | cons d rest ih =>
    intro e he
    simp only [find_rpi_rp2_drive] at he
    split at he
    · simp at he
      exact ⟨_, he⟩
    · exact ih e he

/-- A device returned by the volume matcher carries the target label and
comes from the queried snapshot. -/
theorem find_val_label (label : String → String) (ps : List String) (d : String)
    (h : (find_rpi_rp2_drive label ps).val = some d) :
    label d = partitionName ∧ d ∈ ps := by
  induction ps with
  | nil => simp [find_rpi_rp2_drive] at h
  | cons x rest ih =>
    simp only [find_rpi_rp2_drive] at h
    split at h
    · rename_i hx
      simp only [Option.some.injEq] at h
      subst h
      exact ⟨hx.symm, List.mem_cons_self x rest⟩
    · obtain ⟨h1, h2⟩ := ih h
      exact ⟨h1, List.mem_cons_of_mem x h2⟩

/-- When no snapshot entry carries the target label, the matcher finds
nothing. -/
theorem find_val_none (label : String → String) (ps : List String)
    (h : ∀ d ∈ ps, label d ≠ partitionName) :
    (find_rpi_rp2_drive label ps).val = none := by
  induction ps with
  | nil => rfl
  | cons x rest ih =>
    simp only [find_rpi_rp2_drive]
    have hx : ¬ partitionName = label x :=
      fun hc => h x (List.mem_cons_self x rest) hc.symm
    rw [if_neg hx]
    exact ih (fun d hd => h d (List.mem_cons_of_mem x hd))

/-- The matcher agrees with `List.find?` over the label predicate. -/
theorem find_val_eq_find? (label : String → String) (ps : List String) :
    (find_rpi_rp2_drive label ps).val =
      ps.find? (fun d => partitionName == label d) := by
  induction ps with
  | nil => rfl
  | cons x rest ih =>
    simp only [find_rpi_rp2_drive]
    by_cases h : partitionName = label x
    · rw [if_pos h, List.find?_cons_of_pos _ (by simpa using h)]
    · rw [if_neg h, List.find?_cons_of_neg _ (by simpa using h)]
      exact ih

/-- The exact event trace of one touch probe. -/
theorem get_com_events (env : Env) (k : Nat) (c : String) :
    (get_com_and_partion env k c).events =
      Event.print ("Opening serial connection on " ++ c ++ " ...") ::
      Event.openSerial c 1200 ::
      ((if env.openFails k c then [Event.sleep 3] else []) ++
        (find_rpi_rp2_drive env.label (env.snapshot k)).events) := rfl

/-- A touch probe advances the world-query counter by one. -/
theorem get_com_k (env : Env) (k : Nat) (c : String) :
    (get_com_and_partion env k c).k = k + 1 := rfl

/-- A touch probe returns the probed port paired with whatever the matcher
found in the snapshot taken after the touch. -/
theorem get_com_val (env : Env) (k : Nat) (c : String) :
    (get_com_and_partion env k c).val =
      (find_rpi_rp2_drive env.label (env.snapshot k)).val.map
        (fun partition => (c, partition)) := rfl

/-- `probedPorts` distributes over trace concatenation. -/
theorem probedPorts_append (a b : List Event) :
    probedPorts (a ++ b) = probedPorts a ++ probedPorts b := by
  simp [probedPorts, List.filterMap_append]

/-- A trace of plain prints probes no port. -/
theorem probedPorts_of_all_print (es : List Event)
    (h : ∀ e ∈ es, ∃ s, e = Event.print s) : probedPorts es = [] := by
  induction es with
  | nil => rfl
  | cons e t ih =>
    obtain ⟨s, rfl⟩ := h e (List.mem_cons_self e t)
    simp only [probedPorts, List.filterMap_cons] at ih ⊢
    exact ih (fun x hx => h x (List.mem_cons_of_mem _ hx))

/-- One touch probe touches exactly its own port. -/
theorem probedPorts_get_com (env : Env) (k : Nat) (c : String) :
    probedPorts (get_com_and_partion env k c).events = [c] := by
  have hfind := probedPorts_of_all_print _ (find_events_all_print env.label (env.snapshot k))
  rw [probedPorts] at hfind
  rw [get_com_events, probedPorts,
      List.filterMap_cons_none
        (show touchTarget (Event.print ("Opening serial connection on " ++ c ++ " ...")) = none from rfl),
      List.filterMap_cons_some
        (show touchTarget (Event.openSerial c 1200) = some c from rfl),
      List.filterMap_append, hfind]
  by_cases h : env.openFails k c
  · rw [if_pos h,
        List.filterMap_cons_none (show touchTarget (Event.sleep 3) = none from rfl)]
    rfl
  · rw [if_neg h]
    rfl

/-- The volume matcher never writes the shelve store. -/
theorem find_no_shelve (label : String → String) (ps : List String) (key v : String) :
    Event.shelveWrite key v ∉ (find_rpi_rp2_drive label ps).events := by
  intro hmem
  obtain ⟨s, hs⟩ := find_events_all_print label ps _ hmem
  exact Event.noConfusion hs

/-- A touch probe never writes the shelve store. -/
theorem get_com_no_shelve (env : Env) (k : Nat) (c : String) (key v : String) :
    Event.shelveWrite key v ∉ (get_com_and_partion env k c).events := by
  rw [get_com_events]
  intro hmem
  rcases List.mem_cons.mp hmem with h | hmem2
  · exact Event.noConfusion h
  rcases List.mem_cons.mp hmem2 with h | hmem3
  · exact Event.noConfusion h
  rcases List.mem_append.mp hmem3 with h | h
  · by_cases ho : env.openFails k c
    · rw [if_pos ho] at h
      exact Event.noConfusion (List.mem_singleton.mp h)
    · rw [if_neg ho] at h
      exact absurd h (List.not_mem_nil _)
  · exact find_no_shelve _ _ _ _ h

/-- A probe that returns a device returns its own port paired with a
freshly observed volume carrying the target label. -/
theorem get_com_val_some (env : Env) (k : Nat) (c : String) (d : String × String)
    (h : (get_com_and_partion env k c).val = some d) :
    d.1 = c ∧ env.label d.2 = partitionName ∧ d.2 ∈ env.snapshot k := by
  rw [get_com_val] at h
  cases hf : (find_rpi_rp2_drive env.label (env.snapshot k)).val with
  | none => rw [hf] at h; exact absurd h (by simp)
  | some p =>
    rw [hf] at h
    have hd : d = (c, p) := by simpa using h.symm
    obtain ⟨h1, h2⟩ := find_val_label _ _ _ hf
    subst hd
    exact ⟨rfl, h1, h2⟩

/-- A probe finds nothing exactly when the matcher finds nothing. -/
theorem get_com_val_none (env : Env) (k : Nat) (c : String)
    (h : (find_rpi_rp2_drive env.label (env.snapshot k)).val = none) :
    (get_com_and_partion env k c).val = none := by
  rw [get_com_val, h]
  rfl

/-- Unfolding equation for one registry-scan step. -/
theorem scanRegistry_cons (env : Env) (k : Nat) (port : String) (rest : List String) :
    scanRegistry env k (port :: rest) =
      (match (get_com_and_partion env k port).val with
       | some d => ⟨(get_com_and_partion env k port).events, k + 1, some d⟩
       | none =>
         ⟨(get_com_and_partion env k port).events ++ (scanRegistry env (k + 1) rest).events,
          (scanRegistry env (k + 1) rest).k, (scanRegistry env (k + 1) rest).val⟩) := rfl

/-- The registry scan never writes the shelve store. -/
theorem scanRegistry_no_shelve (env : Env) (ports : List String) :
    ∀ k key v, Event.shelveWrite key v ∉ (scanRegistry env k ports).events := by
  induction ports with
  | nil => intro k key v h; simp [scanRegistry] at h
  | cons p rest ih =>
    intro k key v hmem
    cases hr : (get_com_and_partion env k p).val with
    | some d =>
      simp only [scanRegistry_cons, hr] at hmem
      exact get_com_no_shelve env k p key v hmem
    | none =>
      simp only [scanRegistry_cons, hr] at hmem
      rcases List.mem_append.mp hmem with h | h
      · exact get_com_no_shelve env k p key v h
      · exact ih (k + 1) key v h

/-- A device resolved during the registry scan carries the target label. -/
theorem scanRegistry_val_some (env : Env) (ports : List String) :
    ∀ k d, (scanRegistry env k ports).val = some d → env.label d.2 = partitionName := by
  induction ports with
  | nil => intro k d h; simp [scanRegistry] at h
  | cons p rest ih =>
    intro k d h
    cases hr : (get_com_and_partion env k p).val with
    | some d0 =>
      simp only [scanRegistry_cons, hr] at h
      have hd : d0 = d := by simpa using h
      subst hd
      exact (get_com_val_some env k p d0 hr).2.1
    | none =>
      simp only [scanRegistry_cons, hr] at h
      exact ih (k + 1) d h

/-- Unfolding equation for one range-scan step. -/
theorem rangeScan_cons (env : Env) (k n : Nat) (rest : List Nat) :
    rangeScan env k (n :: rest) =
      (match (get_com_and_partion env k ("COM" ++ toString n)).val with
       | some d =>
         ⟨(get_com_and_partion env k ("COM" ++ toString n)).events ++
            [Event.shelveWrite storage_key d.1], k + 1, some d⟩
       | none =>
         ⟨(get_com_and_partion env k ("COM" ++ toString n)).events ++
            (rangeScan env (k + 1) rest).events,
          (rangeScan env (k + 1) rest).k, (rangeScan env (k + 1) rest).val⟩) := rfl

/-- A device resolved during the range scan carries the target label. -/
theorem rangeScan_val_some (env : Env) (ns : List Nat) :
    ∀ k d, (rangeScan env k ns).val = some d → env.label d.2 = partitionName := by
  induction ns with
  | nil => intro k d h; simp [rangeScan] at h
  | cons n rest ih =>
    intro k d h
    cases hr : (get_com_and_partion env k ("COM" ++ toString n)).val with
    | some d0 =>
      simp only [rangeScan_cons, hr] at h
      have hd : d0 = d := by simpa using h
      subst hd
      exact (get_com_val_some env k _ d0 hr).2.1
    | none =>
      simp only [rangeScan_cons, hr] at h
      exact ih (k + 1) d h

/-- When the range scan resolves a device, the winning port is written to
the shelve store within the scan's own trace. -/
theorem rangeScan_found_shelve (env : Env) (ns : List Nat) :
    ∀ k d, (rangeScan env k ns).val = some d →
      Event.shelveWrite storage_key d.1 ∈ (rangeScan env k ns).events := by
  induction ns with
  | nil => intro k d h; simp [rangeScan] at h
  | cons n rest ih =>
    intro k d h
    cases hr : (get_com_and_partion env k ("COM" ++ toString n)).val with
    | some d0 =>
      simp only [rangeScan_cons, hr] at h ⊢
      have hd : d0 = d := by simpa using h
      subst hd
      exact List.mem_append.mpr (Or.inr (List.mem_singleton.mpr rfl))
    | none =>
      simp only [rangeScan_cons, hr] at h ⊢
      exact List.mem_append.mpr (Or.inr (ih (k + 1) d h))

/-- When the matcher fails at index `k`, a range-scan step just probes its
port and recurses. -/
theorem rangeScan_step_none (env : Env) (k n : Nat) (rest : List Nat)
    (h : (find_rpi_rp2_drive env.label (env.snapshot k)).val = none) :
    (rangeScan env k (n :: rest)).val = (rangeScan env (k + 1) rest).val ∧
    probedPorts (rangeScan env k (n :: rest)).events =
      ("COM" ++ toString n) :: probedPorts (rangeScan env (k + 1) rest).events := by
  have hv := get_com_val_none env k ("COM" ++ toString n) h
  constructor
  · simp only [rangeScan_cons, hv]
  · simp only [rangeScan_cons, hv, probedPorts_append, probedPorts_get_com]
    rfl

/-- When the matcher succeeds at index `k` with device `v`, the range scan
stops at its current port. -/
theorem rangeScan_step_found (env : Env) (k n : Nat) (rest : List Nat) (v : String)
    (h : (find_rpi_rp2_drive env.label (env.snapshot k)).val = some v) :
    (rangeScan env k (n :: rest)).val = some ("COM" ++ toString n, v) ∧
    probedPorts (rangeScan env k (n :: rest)).events = [("COM" ++ toString n)] := by
  have hv : (get_com_and_partion env k ("COM" ++ toString n)).val =
      some ("COM" ++ toString n, v) := by
    rw [get_com_val, h]
    rfl
  constructor
  · simp only [rangeScan_cons, hv]
  · simp only [rangeScan_cons, hv, probedPorts_append, probedPorts_get_com]
    rfl

/-- When `winreg.OpenKey` raises or the registry is empty, the registry
phase contributes nothing. -/
theorem registryPass_empty (env : Env) (k : Nat)
    (h : env.registry = none ∨ env.registry = some []) :
    registryPass env k = ⟨[], k, none⟩ := by
  rcases h with h | h <;> simp [registryPass, scanRegistry, h]

/-- Unfolding equation for the reconnect wait when the registry phase
resolves the device. -/
theorem wait_eq_of_registry_found (env : Env) (k : Nat) (d : String × String)
    (hr : (registryPass env k).val = some d) :
    wait_for_device_reconnect env k =
      ⟨Event.print ("Waiting for Raspberry Pi Pico to reconnect...") ::
        (registryPass env k).events, (registryPass env k).k, some d⟩ := by
  simp only [wait_for_device_reconnect, comAutoScan, if_true, hr]

/-- Unfolding equation for the reconnect wait when the registry phase
resolves nothing and control falls through to the range scan. -/
theorem wait_eq_of_registry_none (env : Env) (k : Nat)
    (hr : (registryPass env k).val = none) :
    wait_for_device_reconnect env k =
      ⟨Event.print ("Waiting for Raspberry Pi Pico to reconnect...") ::
        ((registryPass env k).events ++
          (rangeScan env (registryPass env k).k comRange).events),
       (rangeScan env (registryPass env k).k comRange).k,
       (rangeScan env (registryPass env k).k comRange).val⟩ := by
  simp only [wait_for_device_reconnect, comAutoScan, if_true, hr]

/-- Unfolding equation for the reconnect wait when the registry phase is
unavailable or empty: the whole pass is the range scan. -/
theorem wait_eq_of_registry_empty (env : Env) (k : Nat)
    (h : env.registry = none ∨ env.registry = some []) :
    wait_for_device_reconnect env k =
      ⟨Event.print ("Waiting for Raspberry Pi Pico to reconnect...") ::
        (rangeScan env k comRange).events,
       (rangeScan env k comRange).k, (rangeScan env k comRange).val⟩ := by
  have hrp := registryPass_empty env k h
  have hrv : (registryPass env k).val = none := by rw [hrp]
  rw [wait_eq_of_registry_none env k hrv, hrp]
  rfl

/-- The registry phase never writes the shelve store. -/
theorem registryPass_no_shelve (env : Env) (k : Nat) (key v : String) :
    Event.shelveWrite key v ∉ (registryPass env k).events := by
  cases h : env.registry with
  | none => simp [registryPass, h]
  | some ports =>
    simp only [registryPass, h]
    exact scanRegistry_no_shelve env ports k key v

/-- A device resolved by the registry phase carries the target label. -/
theorem registryPass_val_some (env : Env) (k : Nat) (d : String × String)
    (h : (registryPass env k).val = some d) : env.label d.2 = partitionName := by
  cases hr : env.registry with
  | none => rw [registryPass, hr] at h; exact absurd h (by simp)
  | some ports =>
    rw [registryPass, hr] at h
    exact scanRegistry_val_some env ports k d h

/-- When no snapshot ever shows the target label, the registry scan finds
nothing. -/
theorem scanRegistry_val_none (env : Env) (ports : List String)
    (hall : ∀ j, (find_rpi_rp2_drive env.label (env.snapshot j)).val = none) :
    ∀ k, (scanRegistry env k ports).val = none := by
  induction ports with
  | nil => intro k; rfl
  | cons p rest ih =>
    intro k
    have hv := get_com_val_none env k p (hall k)
    simp only [scanRegistry_cons, hv]
    exact ih (k + 1)

/-- When no snapshot ever shows the target label, the range scan finds
nothing. -/
theorem rangeScan_val_none (env : Env) (ns : List Nat)
    (hall : ∀ j, (find_rpi_rp2_drive env.label (env.snapshot j)).val = none) :
    ∀ k, (rangeScan env k ns).val = none := by
  induction ns with
  | nil => intro k; rfl
  | cons n rest ih =>
    intro k
    have hv := get_com_val_none env k ("COM" ++ toString n) (hall k)
    simp only [rangeScan_cons, hv]
    exact ih (k + 1)

/-- When no snapshot ever shows the target label, the registry phase finds
nothing. -/
theorem registryPass_val_none (env : Env)
    (hall : ∀ j, (find_rpi_rp2_drive env.label (env.snapshot j)).val = none) :
    ∀ k, (registryPass env k).val = none := by
  intro k
  cases hr : env.registry with
  | none => rw [registryPass, hr]
  | some ports =>
    rw [registryPass, hr]
    exact scanRegistry_val_none env ports hall k

-- Claim theorems.

/-- C1, as stated, is false: with an empty registry and no matching volume
ever mounted, `wait_for_device_reconnect` returns the not-found result
`None` after a single pass instead of restarting the enumeration. -/
theorem C1_counterexample : (wait_for_device_reconnect envEmpty 0).val = none := by
  decide

/-- C1 (amended): `wait_for_device_reconnect` performs a single enumeration
pass (registry, then range scan); when no matching volume is observed at
any point of the pass it returns `None` — a not-found result — rather than
restarting the pass. -/
theorem C1_single_pass_none (env : Env) (k : Nat)
    (h : ∀ j d, d ∈ env.snapshot j → env.label d ≠ partitionName) :
    (wait_for_device_reconnect env k).val = none := by
  have hall : ∀ j, (find_rpi_rp2_drive env.label (env.snapshot j)).val = none :=
    fun j => find_val_none env.label (env.snapshot j) (h j)
  rw [wait_eq_of_registry_none env k (registryPass_val_none env hall k)]
  exact rangeScan_val_none env comRange hall _

/-- Witness for C1 (amended) at a concrete world with no volumes. -/
theorem C1_single_pass_none_witness :
    (wait_for_device_reconnect envNoReg 0).val = none :=
  C1_single_pass_none envNoReg 0 (fun _ _ hd => nomatch hd)

/-- C2, as stated, is false: when the 1200-baud touch open succeeds, no
settle sleep happens before the volume check. -/
theorem C2_counterexample :
    envEmpty.openFails 0 "COM3" = false ∧
    Event.sleep 3 ∉ (get_com_and_partion envEmpty 0 "COM3").events := by
  decide

/-- C2 (amended): a touch probe announces the port, attempts the 1200-baud
open, sleeps the 3-second settle interval exactly when the open raised, and
only then checks for the bootloader volume; on a successful open there is
no settle sleep. -/
theorem C2_sleep_iff_open_fails (env : Env) (k : Nat) (c : String) :
    ((get_com_and_partion env k c).events =
      Event.print ("Opening serial connection on " ++ c ++ " ...") ::
      Event.openSerial c 1200 ::
      ((if env.openFails k c then [Event.sleep 3] else []) ++
        (find_rpi_rp2_drive env.label (env.snapshot k)).events)) ∧
    (Event.sleep 3 ∈ (get_com_and_partion env k c).events ↔ env.openFails k c = true) := by
  refine ⟨get_com_events env k c, ?_, ?_⟩
  · intro hmem
    rw [get_com_events] at hmem
    rcases List.mem_cons.mp hmem with h | hmem2
    · exact absurd h (by simp)
    rcases List.mem_cons.mp hmem2 with h | hmem3
    · exact absurd h (by simp)
    rcases List.mem_append.mp hmem3 with h | h
    · by_cases ho : env.openFails k c
      · exact ho
      · rw [if_neg ho] at h
        exact absurd h (List.not_mem_nil _)
    · obtain ⟨s, hs⟩ := find_events_all_print env.label (env.snapshot k) _ h
      exact absurd hs (by simp)
  · intro ho
    rw [get_com_events, if_pos ho]
    exact List.mem_cons.mpr (Or.inr (List.mem_cons.mpr (Or.inr
      (List.mem_append.mpr (Or.inl (List.mem_singleton.mpr rfl))))))

/-- C3, as stated, is false: when the registry branch resolves the winning
port, `wait_for_device_reconnect` returns without writing the last-known
port to the shelve store. -/
theorem C3_counterexample :
    (wait_for_device_reconnect envReg 0).val = some ("COM9", "E:") ∧
    Event.shelveWrite storage_key "COM9" ∉ (wait_for_device_reconnect envReg 0).events := by
  decide

/-- C3 (amended): when `wait_for_device_reconnect` resolves a device, the
winning port is written to the persistent store exactly when the numeric
range-scan branch resolved it (the registry phase found nothing); a port
resolved by the registry branch is returned without being persisted. -/
theorem C3_persist_iff_range_scan (env : Env) (k : Nat) (d : String × String)
    (h : (wait_for_device_reconnect env k).val = some d) :
    (Event.shelveWrite storage_key d.1 ∈ (wait_for_device_reconnect env k).events ↔
      (registryPass env k).val = none) := by
  cases hr : (registryPass env k).val with
  | some d0 =>
    rw [wait_eq_of_registry_found env k d0 hr] at h ⊢
    constructor
    · intro hmem
      rcases List.mem_cons.mp hmem with he | hmem2
      · exact absurd he (by simp)
      · exact absurd hmem2 (registryPass_no_shelve env k storage_key d.1)
    · intro hn
      exact absurd hn (by simp)
  | none =>
    have hw := wait_eq_of_registry_none env k hr
    rw [hw] at h ⊢
    refine ⟨fun _ => rfl, fun _ => ?_⟩
    exact List.mem_cons.mpr (Or.inr (List.mem_append.mpr (Or.inr
      (rangeScan_found_shelve env comRange _ d h))))

/-- Witness for C3 (amended): the range scan resolves `COM1` and the
persisted-iff-range-scan equivalence holds there. -/
theorem C3_persist_iff_range_scan_witness :
    Event.shelveWrite storage_key "COM1" ∈ (wait_for_device_reconnect envScan 0).events ↔
      (registryPass envScan 0).val = none :=
  C3_persist_iff_range_scan envScan 0 ("COM1", "E:") (by decide)

/-- C4: every `(port, volume)` pair returned by `get_com_and_partion` or by
`wait_for_device_reconnect` carries a volume whose label is exactly the
fixed target label `partitionName`. -/
theorem C4_pair_has_target_label :
    (∀ env k c d, (get_com_and_partion env k c).val = some d →
      env.label d.2 = partitionName) ∧
    (∀ env k d, (wait_for_device_reconnect env k).val = some d →
      env.label d.2 = partitionName) := by
  constructor
  · intro env k c d h
    exact (get_com_val_some env k c d h).2.1
  · intro env k d h
    cases hr : (registryPass env k).val with
    | some d0 =>
      rw [wait_eq_of_registry_found env k d0 hr] at h
      have hd : d0 = d := by simpa using h
      subst hd
      exact registryPass_val_some env k d0 hr
    | none =>
      rw [wait_eq_of_registry_none env k hr] at h
      exact rangeScan_val_some env comRange _ d h

/-- Witness for C4 at a concrete device resolution. -/
theorem C4_pair_has_target_label_witness :
    (get_com_and_partion envScan 1 "COM4").val = some ("COM4", "E:") ∧
    envScan.label "E:" = partitionName :=
  ⟨by decide, C4_pair_has_target_label.1 envScan 1 "COM4" ("COM4", "E:") (by decide)⟩

/-- C5: the volume matcher returns the first snapshot entry whose label is
exactly the target label (it agrees with `List.find?`); when exactly one
entry matches it returns that entry regardless of position; and when no
entry matches it reports not-found (`none`) — it is a total function, so it
never raises. -/
theorem C5_matcher_first_exact_match (label : String → String) (ps : List String) :
    ((find_rpi_rp2_drive label ps).val =
      ps.find? (fun d => partitionName == label d)) ∧
    ((∀ d ∈ ps, label d ≠ partitionName) → (find_rpi_rp2_drive label ps).val = none) ∧
    (∀ d, d ∈ ps → label d = partitionName →
      (∀ x ∈ ps, label x = partitionName → x = d) →
      (find_rpi_rp2_drive label ps).val = some d) := by
  refine ⟨find_val_eq_find? label ps, find_val_none label ps, ?_⟩
  intro d hd hld huniq
  rw [find_val_eq_find?]
  cases hf : ps.find? (fun x => partitionName == label x) with
  | none =>
    rw [List.find?_eq_none] at hf
    exact absurd (by simpa using hld.symm) (hf d hd)
  | some x =>
    have hx := List.find?_some hf
    have hmem := List.mem_of_find?_eq_some hf
    have hx' : partitionName = label x := by simpa using hx
    have hxd : x = d := huniq x hmem hx'.symm
    rw [hxd]

/-- Witness for C5: the unique match is returned from the third position. -/
theorem C5_matcher_first_exact_match_witness :
    (find_rpi_rp2_drive (fun d => if d = "E:" then partitionName else ("" : String))
      ["A:", "B:", "E:"]).val = some ("E:") :=
  (C5_matcher_first_exact_match _ _).2.2 "E:" (by decide) (by decide) (by decide)

/-- C6: with the registry unavailable or empty and the range scan running
over the configured indices 1..15, when the volume matcher first succeeds
at the seventh probe, the reconnect wait probes exactly COM1..COM7 in
ascending order and returns `(COM7, volume)` without probing COM8..COM15. -/
theorem C6_range_scan_stops_at_seven (env : Env) (k : Nat)
    (hreg : env.registry = none ∨ env.registry = some [])
    (h0 : (find_rpi_rp2_drive env.label (env.snapshot k)).val = none)
    (h1 : (find_rpi_rp2_drive env.label (env.snapshot (k + 1))).val = none)
    (h2 : (find_rpi_rp2_drive env.label (env.snapshot (k + 2))).val = none)
    (h3 : (find_rpi_rp2_drive env.label (env.snapshot (k + 3))).val = none)
    (h4 : (find_rpi_rp2_drive env.label (env.snapshot (k + 4))).val = none)
    (h5 : (find_rpi_rp2_drive env.label (env.snapshot (k + 5))).val = none)
    (v : String)
    (h6 : (find_rpi_rp2_drive env.label (env.snapshot (k + 6))).val = some v) :
    (wait_for_device_reconnect env k).val = some ("COM7", v) ∧
    probedPorts (wait_for_device_reconnect env k).events =
      ["COM1", "COM2", "COM3", "COM4", "COM5", "COM6", "COM7"] := by
  have hw := wait_eq_of_registry_empty env k hreg
  have hc : comRange = [1, 2, 3, 4, 5, 6, 7, 8, 9, 10, 11, 12, 13, 14, 15] := by decide
  have h1' : (find_rpi_rp2_drive env.label (env.snapshot (k + 1))).val = none := h1
  have h2' : (find_rpi_rp2_drive env.label (env.snapshot (k + 1 + 1))).val = none := h2
  have h3' : (find_rpi_rp2_drive env.label (env.snapshot (k + 1 + 1 + 1))).val = none := h3
  have h4' : (find_rpi_rp2_drive env.label (env.snapshot (k + 1 + 1 + 1 + 1))).val = none := h4
  have h5' : (find_rpi_rp2_drive env.label
      (env.snapshot (k + 1 + 1 + 1 + 1 + 1))).val = none := h5
  have h6' : (find_rpi_rp2_drive env.label
      (env.snapshot (k + 1 + 1 + 1 + 1 + 1 + 1))).val = some v := h6
  have s1 := rangeScan_step_none env k 1 [2, 3, 4, 5, 6, 7, 8, 9, 10, 11, 12, 13, 14, 15] h0
  have s2 := rangeScan_step_none env (k + 1) 2 [3, 4, 5, 6, 7, 8, 9, 10, 11, 12, 13, 14, 15] h1'
  have s3 := rangeScan_step_none env (k + 1 + 1) 3 [4, 5, 6, 7, 8, 9, 10, 11, 12, 13, 14, 15] h2'
  have s4 := rangeScan_step_none env (k + 1 + 1 + 1) 4 [5, 6, 7, 8, 9, 10, 11, 12, 13, 14, 15] h3'
  have s5 := rangeScan_step_none env (k + 1 + 1 + 1 + 1) 5 [6, 7, 8, 9, 10, 11, 12, 13, 14, 15] h4'
  have s6 := rangeScan_step_none env (k + 1 + 1 + 1 + 1 + 1) 6 [7, 8, 9, 10, 11, 12, 13, 14, 15] h5'
  have s7 := rangeScan_step_found env (k + 1 + 1 + 1 + 1 + 1 + 1) 7
    [8, 9, 10, 11, 12, 13, 14, 15] v h6'
  constructor
  · rw [hw]
    show (rangeScan env k comRange).val = some ("COM7", v)
    rw [hc]
    have hval := s1.1.trans (s2.1.trans (s3.1.trans (s4.1.trans (s5.1.trans
      (s6.1.trans s7.1)))))
    rw [hval]
    rw [show ("COM" ++ toString 7 : String) = "COM7" from by decide]
  · rw [hw]
    show probedPorts (Event.print ("Waiting for Raspberry Pi Pico to reconnect...") ::
      (rangeScan env k comRange).events) = _
    rw [probedPorts,
        List.filterMap_cons_none
          (show touchTarget (Event.print ("Waiting for Raspberry Pi Pico to reconnect...")) =
            none from rfl)]
    show probedPorts (rangeScan env k comRange).events = _
    rw [hc, s1.2, s2.2, s3.2, s4.2, s5.2, s6.2, s7.2]
    decide

/-- Witness for C6 at a concrete world where the volume appears at the
seventh probe. -/
theorem C6_range_scan_stops_at_seven_witness :
    (wait_for_device_reconnect envSeven 0).val = some ("COM7", "E:") ∧
    probedPorts (wait_for_device_reconnect envSeven 0).events =
      ["COM1", "COM2", "COM3", "COM4", "COM5", "COM6", "COM7"] :=
  C6_range_scan_stops_at_seven envSeven 0 (Or.inr rfl) (by decide) (by decide) (by decide)
    (by decide) (by decide) (by decide) "E:" (by decide)

/-- C7: a non-empty line read by the monitor loop is emitted as its UTF-8
decoding with surrounding whitespace stripped; the concrete line
`b"boot ok\n"` is emitted as exactly `boot ok`; and a line that fails to
decode surfaces the raw decode error while the loop continues with the
remaining reads. -/
theorem C7_monitor_emits_decoded_stripped :
    (∀ raw s rest, raw ≠ [] → utf8DecodeStr raw = some s →
      read_com_loop (ReadOutcome.line raw :: rest) =
        Event.print (pyStrip s) :: read_com_loop rest) ∧
    read_com_loop [ReadOutcome.line [98, 111, 111, 116, 32, 111, 107, 10]] =
      [Event.print ("boot ok")] ∧
    (∀ raw rest, raw ≠ [] → utf8DecodeStr raw = none →
      read_com_loop (ReadOutcome.line raw :: rest) =
        Event.printDecodeError raw :: read_com_loop rest) := by
  refine ⟨?_, by decide, ?_⟩
  · intro raw s rest hne hdec
    simp only [read_com_loop, if_neg hne, hdec]
    rfl
  · intro raw rest hne hdec
    simp only [read_com_loop, if_neg hne, hdec]
    rfl

/-- Witness for C7: a decodable line is emitted stripped, and an invalid
byte surfaces the decode error while the following line is still read. -/
theorem C7_monitor_emits_decoded_stripped_witness :
    read_com_loop [ReadOutcome.line [104, 105, 10]] = [Event.print ("hi")] ∧
    read_com_loop [ReadOutcome.line [255], ReadOutcome.line [104, 105, 10]] =
      Event.printDecodeError [255] :: read_com_loop [ReadOutcome.line [104, 105, 10]] :=
  ⟨(C7_monitor_emits_decoded_stripped.1 [104, 105, 10] "hi\n" [] (by decide)
      (by decide)).trans (by decide),
   C7_monitor_emits_decoded_stripped.2.2 [255] [ReadOutcome.line [104, 105, 10]]
     (by decide) (by decide)⟩

/-- C9, as stated, is false: the port-open failure during the touch probe
is caught and absorbed with nothing but the settle sleep — the only print
in the trace is the pre-open announcement, so the caught error produces no
diagnostic line. -/
theorem C9_counterexample :
    envOpenFail.openFails 0 "COM3" = true ∧
    (get_com_and_partion envOpenFail 0 "COM3").events =
      [Event.print ("Opening serial connection on COM3 ..."),
       Event.openSerial "COM3" 1200, Event.sleep 3] := by
  decide

/-- C9 (amended): copy failures and decode failures each print a
diagnostic line, but a port-open failure during the touch probe is absorbed
with only the settle sleep and no diagnostic, and a registry query failure
is silently ignored, contributing no output at all. -/
theorem C9_partial_diagnostics :
    (∀ env p fp e, env.argv[1]? = some fp → env.fileExists fp = true →
      env.copyFails = some e →
      Event.print ("Error copying file: " ++ e) ∈ copyFile env p) ∧
    (∀ raw rest, raw ≠ [] → utf8DecodeStr raw = none →
      Event.printDecodeError raw ∈ read_com_loop (ReadOutcome.line raw :: rest)) ∧
    (∀ env k c, env.openFails k c = true →
      (get_com_and_partion env k c).events =
        Event.print ("Opening serial connection on " ++ c ++ " ...") ::
        Event.openSerial c 1200 :: Event.sleep 3 ::
        (find_rpi_rp2_drive env.label (env.snapshot k)).events) ∧
    (∀ env k, env.registry = none →
      (wait_for_device_reconnect env k).events =
        Event.print ("Waiting for Raspberry Pi Pico to reconnect...") ::
        (rangeScan env k comRange).events) := by
  refine ⟨?_, ?_, ?_, ?_⟩
  · intro env p fp e hargv hex hcf
    simp [copyFile, hargv, hex, hcf]
  · intro raw rest hne hdec
    simp only [read_com_loop, if_neg hne, hdec]
    exact List.mem_cons.mpr (Or.inl rfl)
  · intro env k c h
    rw [get_com_events, if_pos h]
    rfl
  · intro env k h
    rw [wait_eq_of_registry_empty env k (Or.inl h)]

/-- Witness for C9 (amended) at concrete copy-failure and open-failure
worlds. -/
theorem C9_partial_diagnostics_witness :
    Event.print ("Error copying file: disk full") ∈ copyFile envCopyErr "E:" ∧
    (get_com_and_partion envOpenFail 1 "COM5").events =
      Event.print ("Opening serial connection on COM5 ...") ::
      Event.openSerial "COM5" 1200 :: Event.sleep 3 ::
      (find_rpi_rp2_drive envOpenFail.label (envOpenFail.snapshot 1)).events :=
  ⟨C9_partial_diagnostics.1 envCopyErr "E:" "fw.uf2" "disk full" (by decide) (by decide)
      (by decide),
   C9_partial_diagnostics.2.2.1 envOpenFail 1 "COM5" (by decide)⟩

/-- C10: with fewer than two `argv` entries, `copyFile` is a no-op: it
emits no event at all — no copy, no print — and returns. -/
theorem C10_no_arg_noop (env : Env) (partition : String) (h : env.argv.length ≤ 1) :
    copyFile env partition = [] := by
  have hn : env.argv[1]? = none := List.getElem?_eq_none h
  simp [copyFile, hn]

/-- Witness for C10 with an empty argument vector. -/
theorem C10_no_arg_noop_witness :
    envEmpty.argv.length ≤ 1 ∧ copyFile envEmpty "E:" = [] :=
  ⟨by decide, C10_no_arg_noop envEmpty "E:" (by decide)⟩

-- Machinery for C8: no part of the flow other than a successful copy in
-- `copyFile` ever emits a `copy` event.

/-- A trace whose events are all non-copies contains no copy event. -/
theorem not_mem_copy_of_copyFree (es : List Event)
    (h : ∀ e ∈ es, isCopy e = false) (s d : String) : Event.copy s d ∉ es :=
  fun hmem => by
    have hc := h _ hmem
    simp [isCopy] at hc

/-- Copy-freeness is preserved by concatenation. -/
theorem copyFree_append {a b : List Event}
    (ha : ∀ e ∈ a, isCopy e = false) (hb : ∀ e ∈ b, isCopy e = false) :
    ∀ e ∈ a ++ b, isCopy e = false := by
  intro e he
  rcases List.mem_append.mp he with h | h
  · exact ha e h
  · exact hb e h

/-- The volume matcher emits no copy event. -/
theorem find_copyFree (label : String → String) (ps : List String) :
    ∀ e ∈ (find_rpi_rp2_drive label ps).events, isCopy e = false := by
  intro e he
  obtain ⟨s, rfl⟩ := find_events_all_print label ps e he
  rfl

/-- A touch probe emits no copy event. -/
theorem get_com_copyFree (env : Env) (k : Nat) (c : String) :
    ∀ e ∈ (get_com_and_partion env k c).events, isCopy e = false := by
  intro e he
  rw [get_com_events] at he
  rcases List.mem_cons.mp he with rfl | he2
  · rfl
  rcases List.mem_cons.mp he2 with rfl | he3
  · rfl
  rcases List.mem_append.mp he3 with h | h
  · by_cases ho : env.openFails k c
    · rw [if_pos ho] at h
      rw [List.mem_singleton.mp h]
      rfl
    · rw [if_neg ho] at h
      exact absurd h (List.not_mem_nil _)
  · exact find_copyFree _ _ e h

/-- The registry scan emits no copy event. -/
theorem scanRegistry_copyFree (env : Env) (ports : List String) :
    ∀ k, ∀ e ∈ (scanRegistry env k ports).events, isCopy e = false := by
  induction ports with
  | nil => intro k e he; simp [scanRegistry] at he
  | cons p rest ih =>
    intro k e he
    cases hr : (get_com_and_partion env k p).val with
    | some d =>
      simp only [scanRegistry_cons, hr] at he
      exact get_com_copyFree env k p e he
    | none =>
      simp only [scanRegistry_cons, hr] at he
      exact copyFree_append (get_com_copyFree env k p) (ih (k + 1)) e he

/-- The range scan emits no copy event. -/
theorem rangeScan_copyFree (env : Env) (ns : List Nat) :
    ∀ k, ∀ e ∈ (rangeScan env k ns).events, isCopy e = false := by
  induction ns with
  | nil => intro k e he; simp [rangeScan] at he
  | cons n rest ih =>
    intro k e he
    cases hr : (get_com_and_partion env k ("COM" ++ toString n)).val with
    | some d =>
      simp only [rangeScan_cons, hr] at he
      refine copyFree_append (get_com_copyFree env k _) ?_ e he
      intro x hx
      rw [List.mem_singleton.mp hx]
      rfl
    | none =>
      simp only [rangeScan_cons, hr] at he
      exact copyFree_append (get_com_copyFree env k _) (ih (k + 1)) e he

/-- The registry phase emits no copy event. -/
theorem registryPass_copyFree (env : Env) (k : Nat) :
    ∀ e ∈ (registryPass env k).events, isCopy e = false := by
  cases h : env.registry with
  | none => intro e he; simp [registryPass, h] at he
  | some ports =>
    intro e he
    rw [registryPass, h] at he
    exact scanRegistry_copyFree env ports k e he

/-- The reconnect wait emits no copy event. -/
theorem wait_copyFree (env : Env) (k : Nat) :
    ∀ e ∈ (wait_for_device_reconnect env k).events, isCopy e = false := by
  intro e he
  cases hr : (registryPass env k).val with
  | some d0 =>
    rw [wait_eq_of_registry_found env k d0 hr] at he
    rcases List.mem_cons.mp he with rfl | h
    · rfl
    · exact registryPass_copyFree env k e h
  | none =>
    rw [wait_eq_of_registry_none env k hr] at he
    rcases List.mem_cons.mp he with rfl | h
    · rfl
    · exact copyFree_append (registryPass_copyFree env k)
        (rangeScan_copyFree env comRange _) e h

/-- The monitor read loop emits no copy event. -/
theorem read_com_loop_copyFree (reads : List ReadOutcome) :
    ∀ e ∈ read_com_loop reads, isCopy e = false := by
  induction reads with
  | nil => intro e he; simp [read_com_loop] at he
  | cons r rest ih =>
    cases r with
    | interrupt => intro e he; simp [read_com_loop] at he
    | line raw =>
      intro e he
      simp only [read_com_loop] at he
      rcases List.mem_append.mp he with h | h
      · by_cases hr : raw = []
        · rw [if_pos hr] at h
          exact absurd h (List.not_mem_nil _)
        · rw [if_neg hr] at h
          cases hd : utf8DecodeStr raw with
          | some s0 =>
            rw [hd] at h
            rw [List.mem_singleton.mp h]
            rfl
          | none =>
            rw [hd] at h
            rw [List.mem_singleton.mp h]
            rfl
      · exact ih e h

/-- Unfolding equation for `read_com` when the monitor open raises. -/
theorem read_com_open_err (env : Env) (m : Nat) (c e : String)
    (he : env.monitorOpenErr m = some e) :
    read_com env m c =
      ⟨[Event.print ("Opening serial connection on " ++ c ++ " ..."),
        Event.openSerial c serial_baudrate, Event.print e], true⟩ := by
  simp only [read_com, he]

/-- Unfolding equation for `read_com` when the monitor open succeeds. -/
theorem read_com_open_ok (env : Env) (m : Nat) (c : String)
    (he : env.monitorOpenErr m = none) :
    read_com env m c =
      ⟨Event.print ("Opening serial connection on " ++ c ++ " ...") ::
        Event.openSerial c serial_baudrate :: read_com_loop (env.reads m), false⟩ := by
  simp only [read_com, he]

/-- A monitor session emits no copy event. -/
theorem read_com_copyFree (env : Env) (m : Nat) (c : String) :
    ∀ e ∈ (read_com env m c).events, isCopy e = false := by
  cases he : env.monitorOpenErr m with
  | some err =>
    intro e hm
    rw [read_com_open_err env m c err he] at hm
    rcases List.mem_cons.mp hm with rfl | hm2
    · rfl
    rcases List.mem_cons.mp hm2 with rfl | hm3
    · rfl
    · rw [List.mem_singleton.mp hm3]
      rfl
  | none =>
    intro e hm
    rw [read_com_open_ok env m c he] at hm
    rcases List.mem_cons.mp hm with rfl | hm2
    · rfl
    rcases List.mem_cons.mp hm2 with rfl | hm3
    · rfl
    · exact read_com_loop_copyFree (env.reads m) e hm3

/-- When the named firmware file does not exist, `copyFile` only prints
the not-found diagnostic, whatever partition it was given. -/
theorem copyFile_missing (env : Env) (fp : String)
    (hargv : env.argv[1]? = some fp) (hne : env.fileExists fp = false) :
    ∀ p, copyFile env p = [Event.print ("File \x27" ++ fp ++ "\x27 not found.")] := by
  intro p
  simp [copyFile, hargv, hne]

/-- `mainTail2` extends its prefix trace. -/
theorem mainTail2_append (env : Env) (pre : List Event)
    (data : Option (String × String)) :
    ∃ t, mainTail2 env pre data = pre ++ t := by
  cases data with
  | none =>
    exact ⟨[Event.print ("Could not establish connection to the Raspberry Pi Pico.")], rfl⟩
  | some d =>
    simp only [mainTail2]
    by_cases hc : (read_com env 1 d.1).continues
    · rw [if_pos hc]
      refine ⟨copyFile env d.2 ++
        (Event.print ("Connecting to Raspberry Pi Pico...") :: (read_com env 1 d.1).events) ++
        [Event.print ("Could not establish connection to the Raspberry Pi Pico.")], ?_⟩
      simp [List.append_assoc]
    · rw [if_neg hc]
      refine ⟨copyFile env d.2 ++
        (Event.print ("Connecting to Raspberry Pi Pico...") :: (read_com env 1 d.1).events), ?_⟩
      simp [List.append_assoc]

/-- `mainTail1` extends its prefix trace. -/
theorem mainTail1_append (env : Env) (pre : List Event) :
    ∃ t, mainTail1 env pre = pre ++ t := by
  cases hs : env.storedPort with
  | some c =>
    cases hg : (get_com_and_partion env 1 c).val with
    | some d =>
      obtain ⟨t, ht⟩ :=
        mainTail2_append env (pre ++ (get_com_and_partion env 1 c).events) (some d)
      refine ⟨(get_com_and_partion env 1 c).events ++ t, ?_⟩
      simp only [mainTail1, hs, hg, ht, List.append_assoc]
    | none =>
      obtain ⟨t, ht⟩ :=
        mainTail2_append env
          (pre ++ ((get_com_and_partion env 1 c).events ++
            (wait_for_device_reconnect env (get_com_and_partion env 1 c).k).events))
          (wait_for_device_reconnect env (get_com_and_partion env 1 c).k).val
      refine ⟨(get_com_and_partion env 1 c).events ++
        ((wait_for_device_reconnect env (get_com_and_partion env 1 c).k).events ++ t), ?_⟩
      simp only [mainTail1, hs, hg, List.append_assoc]
      rw [ht]
      simp [List.append_assoc]
  | none =>
    obtain ⟨t, ht⟩ :=
      mainTail2_append env (pre ++ (wait_for_device_reconnect env 1).events)
        (wait_for_device_reconnect env 1).val
    refine ⟨(wait_for_device_reconnect env 1).events ++ t, ?_⟩
    simp only [mainTail1, hs, List.nil_append, List.append_assoc]
    rw [ht]
    simp [List.append_assoc]

/-- When `copyFile` emits no copy event, neither does `mainTail2`. -/
theorem mainTail2_copyFree (env : Env) (pre : List Event)
    (data : Option (String × String))
    (hpre : ∀ e ∈ pre, isCopy e = false)
    (hcf : ∀ p, ∀ e ∈ copyFile env p, isCopy e = false) :
    ∀ e ∈ mainTail2 env pre data, isCopy e = false := by
  cases data with
  | none =>
    simp only [mainTail2]
    refine copyFree_append hpre ?_
    intro e he
    rw [List.mem_singleton.mp he]
    rfl
  | some d =>
    simp only [mainTail2]
    have hmon : ∀ e ∈ Event.print ("Connecting to Raspberry Pi Pico...") ::
        (read_com env 1 d.1).events, isCopy e = false := by
      intro e he
      rcases List.mem_cons.mp he with rfl | h
      · rfl
      · exact read_com_copyFree env 1 d.1 e h
    by_cases hc : (read_com env 1 d.1).continues
    · rw [if_pos hc]
      refine copyFree_append (copyFree_append (copyFree_append hpre (hcf d.2)) hmon) ?_
      intro e he
      rw [List.mem_singleton.mp he]
      rfl
    · rw [if_neg hc]
      exact copyFree_append (copyFree_append hpre (hcf d.2)) hmon

/-- When `copyFile` emits no copy event, neither does `mainTail1`. -/
theorem mainTail1_copyFree (env : Env) (pre : List Event)
    (hpre : ∀ e ∈ pre, isCopy e = false)
    (hcf : ∀ p, ∀ e ∈ copyFile env p, isCopy e = false) :
    ∀ e ∈ mainTail1 env pre, isCopy e = false := by
  cases hs : env.storedPort with
  | some c =>
    cases hg : (get_com_and_partion env 1 c).val with
    | some d =>
      simp only [mainTail1, hs, hg]
      exact mainTail2_copyFree env _ _
        (copyFree_append hpre (get_com_copyFree env 1 c)) hcf
    | none =>
      simp only [mainTail1, hs, hg]
      exact mainTail2_copyFree env _ _
        (copyFree_append (copyFree_append hpre (get_com_copyFree env 1 c))
          (wait_copyFree env _)) hcf
  | none =>
    simp only [mainTail1, hs]
    exact mainTail2_copyFree env _ _
      (copyFree_append (copyFree_append hpre (fun e he => absurd he (List.not_mem_nil _)))
        (wait_copyFree env _)) hcf

/-- Unfolding equation for `main`: volume found at startup, stored port
present, and the fast-path monitor returns (its open raised). -/
theorem main_eq_fast_path_continues (env : Env) (part c : String)
    (hfind : (find_rpi_rp2_drive env.label (env.snapshot 0)).val = some part)
    (hstored : env.storedPort = some c)
    (hcont : (read_com env 0 c).continues = true) :
    flash.main env = mainTail1 env
      ((find_rpi_rp2_drive env.label (env.snapshot 0)).events ++
        copyFile env part ++ (read_com env 0 c).events) := by
  simp [flash.main, hfind, hstored, hcont]

/-- Unfolding equation for `main`: volume found at startup, stored port
present, and the fast-path monitor never returns. -/
theorem main_eq_fast_path_stops (env : Env) (part c : String)
    (hfind : (find_rpi_rp2_drive env.label (env.snapshot 0)).val = some part)
    (hstored : env.storedPort = some c)
    (hcont : (read_com env 0 c).continues = false) :
    flash.main env =
      (find_rpi_rp2_drive env.label (env.snapshot 0)).events ++
        copyFile env part ++ (read_com env 0 c).events := by
  simp [flash.main, hfind, hstored, hcont]

/-- When `copyFile` emits no copy event, the whole `main` flow emits no
copy event. -/
theorem main_copyFree (env : Env)
    (hcf : ∀ p, ∀ e ∈ copyFile env p, isCopy e = false) :
    ∀ e ∈ flash.main env, isCopy e = false := by
  cases hf : (find_rpi_rp2_drive env.label (env.snapshot 0)).val with
  | some partition =>
    have hfind := find_copyFree env.label (env.snapshot 0)
    cases hs : env.storedPort with
    | some c =>
      have hrc := read_com_copyFree env 0 c
      by_cases hc : (read_com env 0 c).continues
      · simp only [flash.main, hf, hs, if_pos hc]
        exact mainTail1_copyFree env _
          (copyFree_append (copyFree_append hfind (hcf partition)) hrc) hcf
      · simp only [flash.main, hf, hs, if_neg hc]
        exact copyFree_append (copyFree_append hfind (hcf partition)) hrc
    | none =>
      simp only [flash.main, hf, hs]
      exact mainTail1_copyFree env _ (copyFree_append hfind (hcf partition)) hcf
  | none =>
    simp only [flash.main, hf]
    refine mainTail1_copyFree env _
      (copyFree_append (find_copyFree env.label (env.snapshot 0)) ?_) hcf
    intro e he
    rw [List.mem_singleton.mp he]
    rfl

/-- C8: when the firmware image path does not exist, `copyFile` reports
the not-found diagnostic and nothing else — in particular it writes
nothing to the volume and, being a total function, returns rather than
raising; with the bootloader volume present and a stored port, `main`
then proceeds to attempt serial monitoring, the open announcement
immediately following the diagnostic; and no copy event occurs anywhere
in the run. -/
theorem C8_missing_file_soft_failure (env : Env) (fp part c : String)
    (hargv : env.argv[1]? = some fp)
    (hne : env.fileExists fp = false)
    (hfind : (find_rpi_rp2_drive env.label (env.snapshot 0)).val = some part)
    (hstored : env.storedPort = some c) :
    copyFile env part = [Event.print ("File \x27" ++ fp ++ "\x27 not found.")] ∧
    (∃ rest, flash.main env =
      (find_rpi_rp2_drive env.label (env.snapshot 0)).events ++
      Event.print ("File \x27" ++ fp ++ "\x27 not found.") ::
      Event.print ("Opening serial connection on " ++ c ++ " ...") ::
      Event.openSerial c serial_baudrate :: rest) ∧
    (∀ s d, Event.copy s d ∉ flash.main env) := by
  have hcp := copyFile_missing env fp hargv hne
  refine ⟨hcp part, ?_, ?_⟩
  · cases he : env.monitorOpenErr 0 with
    | some err =>
      have hrc := read_com_open_err env 0 c err he
      have hcont : (read_com env 0 c).continues = true := by rw [hrc]
      obtain ⟨t, ht⟩ := mainTail1_append env
        ((find_rpi_rp2_drive env.label (env.snapshot 0)).events ++
          copyFile env part ++ (read_com env 0 c).events)
      refine ⟨Event.print err :: t, ?_⟩
      rw [main_eq_fast_path_continues env part c hfind hstored hcont, ht, hcp part, hrc]
      simp [List.append_assoc]
    | none =>
      have hrc := read_com_open_ok env 0 c he
      have hcont : (read_com env 0 c).continues = false := by rw [hrc]
      refine ⟨read_com_loop (env.reads 0), ?_⟩
      rw [main_eq_fast_path_stops env part c hfind hstored hcont, hcp part, hrc]
      simp [List.append_assoc]
  · intro s d
    refine not_mem_copy_of_copyFree _ (main_copyFree env ?_) s d
    intro p e he
    rw [hcp p] at he
    rw [List.mem_singleton.mp he]
    rfl

/-- Witness for C8 at a concrete world with a missing firmware file. -/
theorem C8_missing_file_soft_failure_witness :
    copyFile envMissingFile "E:" =
      [Event.print ("File \x27firmware.uf2\x27 not found.")] ∧
    (∃ rest, flash.main envMissingFile =
      (find_rpi_rp2_drive envMissingFile.label (envMissingFile.snapshot 0)).events ++
      Event.print ("File \x27firmware.uf2\x27 not found.") ::
      Event.print ("Opening serial connection on COM4 ...") ::
      Event.openSerial "COM4" serial_baudrate :: rest) ∧
    (∀ s d, Event.copy s d ∉ flash.main envMissingFile) :=
  C8_missing_file_soft_failure envMissingFile "firmware.uf2" "E:" "COM4"
    (by decide) (by decide) (by decide) (by decide)

